import Mathlib

/-!
Verification of the relay peer-to-peer library: a shallow embedding of the
socket wrapper, peer endpoint, peer registry (PeerManager) and multicast
discovery components, with theorems settling the behavioural claims about
relay, broadcast, registration, inactivity pruning and discovery
deduplication.

Conventions of the embedding:
* OS-level I/O results are passed in as explicit oracle arguments
  (`Option Nat` for the result of a raw send: `none` models the -1 error
  return, `some n` models `n` bytes written; a `String` for the payload a
  blocking receive would deliver, `""` modelling no-data/peer-close).
* Wall-clock (`std::chrono::system_clock`) and steady-clock timestamps are
  modelled as natural numbers of seconds, passed in as `now` arguments.
* `std::shared_ptr` aliasing of peers inside the registry is modelled by
  updating the registry entry in place, keyed by id.
* A C++ function that can fall off the end of a non-void function body
  (returning no value, which is undefined behaviour) is modelled with an
  `Option` result, `none` marking the missing-return control path.
-/

namespace Relay

/-- Socket operating mode, from `SocketMode` in socket_wrapper.h
(the current three-mode variant: TCP server, TCP client, UDP datagram). -/
inductive SocketMode where
  | TCP_SERVER
  | TCP_CLIENT
  | UDP
deriving DecidableEq, Repr

/-- State of one `SocketWrapper`: the open flag and the mode.  The file
descriptor itself is outside the model; the result of the raw OS send is
supplied as an oracle argument to `send`/`sendTo`. -/
structure SocketWrapper where
  isSocketOpen : Bool
  mode : SocketMode
deriving DecidableEq, Repr

/-- An IPv4 sender/destination address (`sockaddr_in`), reduced to the
fields the discovery code reads: dotted-quad ip string and port. -/
structure Addr where
  ip : String
  port : Nat
deriving DecidableEq, Repr

/-- The address string the discovery code builds from a `sockaddr_in`:
`inet_ntoa(addr) ++ ":" ++ std::to_string(ntohs(port))`. -/
def Addr.toKey (a : Addr) : String :=
  a.ip ++ ":" ++ toString a.port

/-- `SocketWrapper::send` (socket_wrapper.cpp, current variant): returns 0
when the socket is closed; otherwise returns the byte count the OS send
reported, or 0 when the OS send failed (`osResult = none` models the -1
return).  The function is total (returns a plain `Nat`): a transient
failure is absorbed, never raised to the caller. -/
def SocketWrapper.send (s : SocketWrapper) (data : String)
    (osResult : Option Nat) : Nat :=
  if !s.isSocketOpen then 0
  else
    match osResult with
    | none => 0
    | some n => n

/-- `SocketWrapper::sendTo` (socket_wrapper.cpp, current variant): returns
0 when the socket is closed or not in UDP mode; otherwise the byte count
from the OS sendto, or 0 on its -1 failure.  Total, like `send`. -/
def SocketWrapper.sendTo (s : SocketWrapper) (data : String) (destAddr : Addr)
    (osResult : Option Nat) : Nat :=
  if !s.isSocketOpen || !(s.mode = SocketMode.UDP) then 0
  else
    match osResult with
    | none => 0
    | some n => n

/-- State of one `Peer` endpoint (peer.h, current variant with the
statistics fields).  The accepted child connections (`clients_`) appear in
`receiveMessage` only through the payload each child's receive yields, so
they are passed to that function as an oracle list rather than stored.
`lastSent`/`lastReceived` are `none` while still at their default
(epoch) value. -/
structure PeerState where
  id : String
  ip : String
  port : Int
  lastActive : Nat
  metadata : Option String
  socket : Option SocketWrapper
  lastSent : Option Nat
  lastReceived : Option Nat
  latencyMs : Int
  messagesSent : Nat
  messagesReceived : Nat
  bytesSent : Nat
  bytesReceived : Nat
  isConnectedFlag : Bool
deriving DecidableEq, Repr

/-- Whether the peer holds a non-null, open socket (the guard
`socket_ && socket_->isOpen()` used by `sendMessage`/`receiveMessage`). -/
def PeerState.hasOpenSocket (p : PeerState) : Bool :=
  match p.socket with
  | none => false
  | some s => s.isSocketOpen

/-- The result of forwarding `data` to this peer's `socket_->send`,
0 when the peer has no socket (that path is guarded out in the source). -/
def PeerState.socketSend (p : PeerState) (data : String)
    (osResult : Option Nat) : Nat :=
  match p.socket with
  | none => 0
  | some s => s.send data osResult

/-- `Peer::updateLastActive`: sets the last-active timestamp to the
current wall-clock time. -/
def PeerState.updateLastActive (p : PeerState) (nowWall : Nat) : PeerState :=
  { p with lastActive := nowWall }

/-- `Peer::sendMessage` (part_006 of the sources, lines 87-117).
Guard: with a null or closed socket it clears the connected flag and
fails fast, before any send attempt.  Otherwise it records the attempt
time in `lastSent_`, forwards the text to `socket_->send`, and exactly
when the send reports more than 0 bytes it increments the messages-sent
and bytes-sent counters, marks the peer connected and returns true.
`nowSteady` is the steady-clock reading taken for `lastSent_`;
`osResult` is the OS send oracle.  No statement of the source writes
`lastActive_`. -/
def PeerState.sendMessage (p : PeerState) (message : String)
    (nowSteady : Nat) (osResult : Option Nat) : Bool × PeerState :=
  if !p.hasOpenSocket then
    (false, { p with isConnectedFlag := false })
  else
    let p1 := { p with lastSent := some nowSteady }
    let sent := p.socketSend message osResult
    if sent > 0 then
      (true, { p1 with
                messagesSent := p1.messagesSent + 1,
                bytesSent := p1.bytesSent + sent,
                isConnectedFlag := true })
    else
      (false, p1)

/-- `Peer::updateLatency` (peer.h): when both the last-sent and the
last-received timestamps have been set, the latency estimate becomes
their difference in milliseconds (here: seconds, same model unit). -/
def PeerState.updateLatency (p : PeerState) : PeerState :=
  match p.lastSent, p.lastReceived with
  | some s, some r => { p with latencyMs := (r : Int) - (s : Int) }
  | _, _ => p

/-- First non-empty payload delivered by the accepted child connections,
scanned in insertion order (the `for` loop of `Peer::receiveMessage`
breaks at the first non-empty receive); `none` when every child
delivered an empty payload. -/
def firstNonEmpty : List String → Option String
  | [] => none
  | m :: ms => if m ≠ "" then some m else firstNonEmpty ms

/-- `Peer::receiveMessage` (part_006 of the sources, lines 119-177).
`clientMsgs` lists, in insertion order, the payload each accepted child
connection's `receive(1024)` yields on this call; `primMsg` is the
payload of the blocking `socket_->receive(1024)` in point-to-point mode.
The first component is `some r` when the source returns the string `r`,
and `none` on the control paths where the source body reaches the end of
the function without executing any return statement (all child receives
empty in server mode, or an empty primary receive otherwise) — returning
no value from a non-void C++ function is undefined behaviour. -/
def PeerState.receiveMessage (p : PeerState) (clientMsgs : List String)
    (primMsg : String) (nowSteady : Nat) : Option String × PeerState :=
  if !p.hasOpenSocket then
    (some "", p)
  else if (match p.socket with | some s => s.mode | none => SocketMode.TCP_CLIENT)
      = SocketMode.TCP_SERVER then
    if clientMsgs = [] then
      (some "", p)
    else
      match firstNonEmpty clientMsgs with
      | some msg =>
          let p1 := { p with
                        lastReceived := some nowSteady,
                        messagesReceived := p.messagesReceived + 1,
                        bytesReceived := p.bytesReceived + msg.length,
                        isConnectedFlag := true }
          (some msg, p1.updateLatency)
      | none => (none, p)
  else
    if primMsg ≠ "" then
      let p1 := { p with
                    lastReceived := some nowSteady,
                    messagesReceived := p.messagesReceived + 1,
                    bytesReceived := p.bytesReceived + primMsg.length,
                    isConnectedFlag := true }
      (some primMsg, p1.updateLatency)
    else
      (none, p)

/-- The registry of `PeerManager`: the id → peer map `peers_`
(`std::unordered_map<std::string, std::shared_ptr<Peer>>`), embedded as
an association list of (id, peer state) entries.  A structural invariant
of the C++ map is that keys occur at most once (`keysNodup` below). -/
abbrev Registry := List (String × PeerState)

/-- Keys of the map occur at most once — always true of the
`std::unordered_map` backing the registry. -/
def Registry.keysNodup (r : Registry) : Prop :=
  (r.map Prod.fst).Nodup

/-- Each stored peer's own id field equals its key — maintained by
`addPeer`/`addDiscoveredPeers`, which always emplace under
`peer->getId()`. -/
def Registry.idsConsistent (r : Registry) : Prop :=
  ∀ e ∈ r, (e : String × PeerState).2.id = e.1

/-- `peers_.find(i)` as an option-valued lookup. -/
def Registry.lookup : Registry → String → Option PeerState
  | [], _ => none
  | e :: r, i => if e.1 = i then some e.2 else Registry.lookup r i

/-- Replace the value stored under key `i` (no-op when `i` is absent):
the effect, seen through the map, of mutating the `shared_ptr<Peer>`
object stored under that key. -/
def Registry.setPeer : Registry → String → PeerState → Registry
  | [], _, _ => []
  | e :: r, i, p => if e.1 = i then (i, p) :: r else e :: Registry.setPeer r i p

/-- Calling `updateLastActive` on the peer stored under `i`. -/
def Registry.updateLastActiveAt (r : Registry) (i : String) (nowWall : Nat) :
    Registry :=
  match r.lookup i with
  | none => r
  | some p => r.setPeer i (p.updateLastActive nowWall)

/-- All entries stored under key `i` (used to state uniqueness). -/
def Registry.entriesFor (r : Registry) (i : String) : Registry :=
  r.filter (fun e => e.1 = i)

/-- `PeerManager::addPeer` (part_007, lines 13-31): when an entry with
the peer's id already exists the insert is rejected and the registry is
unchanged; otherwise the peer is emplaced under its id.  (The null-peer
argument throws in the source; the embedding takes peers by value, so
that path does not arise.) -/
def Registry.addPeer (r : Registry) (p : PeerState) : Registry :=
  if (r.lookup p.id).isSome then r else r ++ [(p.id, p)]

/-- `PeerManager::listPeers` (part_007, lines 152-162): a snapshot of the
stored peers. -/
def Registry.listPeers (r : Registry) : List PeerState :=
  r.map Prod.snd

/-- `PeerManager::removeInactivePeers` (part_007, lines 125-141): erases
every peer whose age `now − lastActive` (in seconds) strictly exceeds
the timeout, keeping the rest. -/
def Registry.removeInactivePeers (r : Registry) (timeout nowWall : Nat) :
    Registry :=
  r.filter (fun e => !(nowWall - e.2.lastActive > timeout))

/-- Result of `PeerManager::relayMessage`: the boolean return value, the
registry after the call (all mutations of the shared peer objects
written back), and the payload handed to the target endpoint's
`sendMessage` (`none` when the relay failed before reaching the send). -/
structure RelayResult where
  ok : Bool
  registry : Registry
  sentToTarget : Option String
deriving DecidableEq

/-- `PeerManager::relayMessage` (part_007, lines 61-106).  Looks up both
ids; when either is missing it returns false with no state change.
Otherwise it builds the transformed payload `"[Relayed] " ++ message`
and hands it to the target peer's `sendMessage`; exactly when that
returns true it calls `updateLastActive` on the source and then on the
target (both set to the wall clock `nowWall`) and returns true, else it
returns false.  The target's own `sendMessage` side effects (last-sent
time, counters) are written back in either case, mirroring the shared
peer object. -/
def Registry.relayMessage (r : Registry) (sourceId targetId : String)
    (message : String) (nowSteady nowWall : Nat) (osResult : Option Nat) :
    RelayResult :=
  match r.lookup sourceId, r.lookup targetId with
  | none, _ => ⟨false, r, none⟩
  | some _, none => ⟨false, r, none⟩
  | some _, some tp =>
    let transformed := "[Relayed] " ++ message
    let res := tp.sendMessage transformed nowSteady osResult
    if res.1 then
      let r1 := r.setPeer targetId res.2
      let r2 := r1.updateLastActiveAt sourceId nowWall
      let r3 := r2.updateLastActiveAt targetId nowWall
      ⟨true, r3, some transformed⟩
    else
      ⟨false, r.setPeer targetId res.2, some transformed⟩

/-- Modelled from the spec: `PeerManager::broadcast` is declared in
include/relay/peer_manager.h (lines 106-109) and called by
`relay_broadcast`, but its definition is not among the provided source
files.  Per the spec it "snapshots all peers, attempts `sendMessage` on
each, continuing past individual failures (best-effort)".  The oracle
`osFor` gives each peer's OS send outcome by id; the attempts list
records, in snapshot order, each attempted peer id with its
`sendMessage` result. -/
def Registry.broadcast (r : Registry) (message : String) (nowSteady : Nat)
    (osFor : String → Option Nat) : Registry × List (String × Bool) :=
  r.foldl
    (fun acc e =>
      let res := e.2.sendMessage message nowSteady (osFor e.1)
      (acc.1.setPeer e.1 res.2, acc.2 ++ [(e.1, res.1)]))
    (r, [])

/-- The two wire variants of a discovery message (peer.cpp /
peer_discovery.cpp `DiscoveryMessageType`). -/
inductive DiscoveryMessageType where
  | DISCOVERY_REQUEST
  | DISCOVERY_RESPONSE
deriving DecidableEq, Repr

/-- `toString(DiscoveryMessageType)`: each variant serialized as its
literal tag string. -/
def DiscoveryMessageType.text : DiscoveryMessageType → String
  | .DISCOVERY_REQUEST => "DISCOVERY_REQUEST"
  | .DISCOVERY_RESPONSE => "DISCOVERY_RESPONSE"

/-- One datagram as seen by the discovery listener: payload plus the
sender address reported by `receiveFrom`. -/
structure Datagram where
  payload : String
  sender : Addr
deriving DecidableEq, Repr

/-- `PeerDiscovery::handleDiscoveryResponse` (src/src/peer.cpp, lines
304-321): forms the sender's address string and appends it to the
discovered list only when not already present (linear string scan). -/
def handleDiscoveryResponse (peers : List String) (senderAddr : Addr) :
    List String :=
  if senderAddr.toKey ∈ peers then peers
  else peers ++ [senderAddr.toKey]

/-- One iteration of `PeerDiscovery::discoveryListener` (src/src/peer.cpp,
lines 263-288) together with `respondToDiscovery` (lines 290-302), for a
datagram that arrived: an exact-match Request payload is answered with a
Response datagram sent directly to the sender's address (second
component records the payload and destination of that `sendTo`); an
exact-match Response payload inserts the sender's address into the
discovered list when absent; any other payload (the empty no-data result
included) changes nothing and sends nothing. -/
def discoveryListenerStep (peers : List String) (d : Datagram) :
    List String × Option (String × Addr) :=
  if d.payload = "" then (peers, none)
  else if d.payload = DiscoveryMessageType.DISCOVERY_REQUEST.text then
    (peers, some (DiscoveryMessageType.DISCOVERY_RESPONSE.text, d.sender))
  else if d.payload = DiscoveryMessageType.DISCOVERY_RESPONSE.text then
    (handleDiscoveryResponse peers d.sender, none)
  else (peers, none)

/-- The discovered-address list after the listener has processed a
sequence of datagrams, starting from the empty list a fresh
`PeerDiscovery` holds. -/
def discoveredAfter (ds : List Datagram) : List String :=
  ds.foldl (fun ps d => (discoveryListenerStep ps d).1) []

/-! Helper lemmas about the registry embedding. -/

theorem Registry.lookup_mem {r : Registry} {i : String} {p : PeerState}
    (h : r.lookup i = some p) : (i, p) ∈ r := by
  induction r with
  | nil => simp [Registry.lookup] at h
  | cons e r ih =>
    rw [Registry.lookup] at h
    by_cases he : e.1 = i
    · simp [he] at h
      subst he h
      exact List.mem_cons_self _ _
    · simp [he] at h
      exact List.mem_cons_of_mem _ (ih h)

theorem Registry.lookup_none_keys {r : Registry} {i : String}
    (h : r.lookup i = none) : ∀ e ∈ r, (e : String × PeerState).1 ≠ i := by
  induction r with
  | nil => intro e he; simp at he
  | cons a r ih =>
    rw [Registry.lookup] at h
    by_cases ha : a.1 = i
    · simp [ha] at h
    · simp [ha] at h
      intro e he
      rcases List.mem_cons.mp he with rfl | he2
      · exact ha
      · exact ih h e he2

theorem Registry.mem_lookup_of_keysNodup {r : Registry} {i : String}
    {p : PeerState} (hk : r.keysNodup) (h : (i, p) ∈ r) :
    r.lookup i = some p := by
  induction r with
  | nil => simp at h
  | cons e r ih =>
    rw [Registry.keysNodup, List.map_cons, List.nodup_cons] at hk
    rcases List.mem_cons.mp h with rfl | h2
    · simp [Registry.lookup]
    · rw [Registry.lookup]
      by_cases he : e.1 = i
      · exfalso
        exact hk.1 (he ▸ List.mem_map_of_mem Prod.fst h2)
      · simp [he]
        exact ih hk.2 h2

theorem Registry.lookup_setPeer_self {r : Registry} {i : String}
    {p q : PeerState} (h : r.lookup i = some q) :
    (r.setPeer i p).lookup i = some p := by
  induction r with
  | nil => simp [Registry.lookup] at h
  | cons e r ih =>
    rw [Registry.lookup] at h
    rw [Registry.setPeer]
    by_cases he : e.1 = i
    · simp [he, Registry.lookup]
    · simp [he] at h
      simp [he, Registry.lookup]
      exact ih h

theorem Registry.lookup_setPeer_ne {r : Registry} {i j : String}
    {p : PeerState} (h : j ≠ i) :
    (r.setPeer i p).lookup j = r.lookup j := by
  induction r with
  | nil => rfl
  | cons e r ih =>
    rw [Registry.setPeer]
    by_cases he : e.1 = i
    · rw [if_pos he]
      subst he
      simp only [Registry.lookup]
      rw [if_neg (fun hji => h hji.symm), if_neg (fun hji => h hji.symm)]
    · simp only [if_neg he, Registry.lookup]
      by_cases hej : e.1 = j
      · simp [hej]
      · simp [hej]
        exact ih

theorem Registry.updateLastActiveAt_lookup_self {r : Registry} {i : String}
    {q : PeerState} {nw : Nat} (h : r.lookup i = some q) :
    (r.updateLastActiveAt i nw).lookup i = some (q.updateLastActive nw) := by
  rw [Registry.updateLastActiveAt, h]
  exact Registry.lookup_setPeer_self h

theorem Registry.updateLastActiveAt_lookup_ne {r : Registry} {i j : String}
    {nw : Nat} (h : j ≠ i) :
    (r.updateLastActiveAt i nw).lookup j = r.lookup j := by
  rw [Registry.updateLastActiveAt]
  cases hl : r.lookup i with
  | none => rfl
  | some q => exact Registry.lookup_setPeer_ne h

theorem PeerState.sendMessage_lastActive (p : PeerState) (m : String)
    (ns : Nat) (os : Option Nat) :
    (p.sendMessage m ns os).2.lastActive = p.lastActive := by
  rw [PeerState.sendMessage]
  by_cases h : p.hasOpenSocket <;> simp [h]
  by_cases hs : 0 < p.socketSend m os <;> simp [hs]

theorem Registry.lookup_append_of_none {r l : Registry} {i : String}
    (h : r.lookup i = none) : (r ++ l).lookup i = l.lookup i := by
  induction r with
  | nil => rfl
  | cons e r ih =>
    rw [Registry.lookup] at h
    by_cases he : e.1 = i
    · simp [he] at h
    · simp [he] at h
      rw [List.cons_append, Registry.lookup]
      simp [he]
      exact ih h

theorem Registry.entriesFor_nil_of_lookup_none {r : Registry} {i : String}
    (h : r.lookup i = none) : r.entriesFor i = [] := by
  induction r with
  | nil => rfl
  | cons e r ih =>
    rw [Registry.lookup] at h
    by_cases he : e.1 = i
    · simp [he] at h
    · simp [he] at h
      rw [Registry.entriesFor, List.filter_cons, if_neg (by simp [he])]
      exact ih h

theorem Registry.entriesFor_append (r l : Registry) (i : String) :
    (r ++ l).entriesFor i = r.entriesFor i ++ l.entriesFor i :=
  List.filter_append _ _

/-! Concrete fixtures used by witnesses and counterexamples. -/

/-- An open point-to-point (TCP client) socket. -/
def openClientSock : SocketWrapper := ⟨true, SocketMode.TCP_CLIENT⟩

/-- An open listening (TCP server) socket. -/
def openServerSock : SocketWrapper := ⟨true, SocketMode.TCP_SERVER⟩

/-- A connected peer "a". -/
def peerA : PeerState :=
  ⟨"a", "10.0.0.1", 4000, 0, none, some openClientSock,
   none, none, 0, 0, 0, 0, 0, false⟩

/-- A connected peer "b". -/
def peerB : PeerState := { peerA with id := "b", ip := "10.0.0.2" }

/-- A different peer object carrying the same id "a" as `peerA`. -/
def peerA2 : PeerState := { peerA with ip := "10.0.0.9" }

/-- A third distinct peer object with id "a", pre-existing in a registry. -/
def peerPre : PeerState := { peerA with ip := "10.0.0.8" }

/-- A peer recently active (`lastActive = 90`). -/
def peerNew : PeerState := { peerA with id := "n", lastActive := 90 }

/-- A peer long inactive (`lastActive = 0`). -/
def peerOld : PeerState := { peerA with id := "o", lastActive := 0 }

/-- A one-peer registry used by the C1 witness. -/
def rW1 : Registry := [("a", peerA)]

/-- A two-peer registry used by the C3 witness. -/
def rW3 : Registry := [("n", peerNew), ("o", peerOld)]

/-- A two-peer registry used by the C8 witness. -/
def rW8 : Registry := [("a", peerA), ("b", peerB)]

/-! Claim theorems. -/

/-- Claim C1: for every registry and ids src, tgt with at least one of
them unregistered, `relayMessage` returns false, the registry is
unchanged, and in particular every stored peer's last-active timestamp is
the same after the call as before it. -/
theorem relayMessage_absent_false_no_change (r : Registry)
    (sourceId targetId message : String) (ns nw : Nat) (os : Option Nat)
    (h : r.lookup sourceId = none ∨ r.lookup targetId = none) :
    (r.relayMessage sourceId targetId message ns nw os).ok = false ∧
    (r.relayMessage sourceId targetId message ns nw os).registry = r ∧
    ∀ i, (((r.relayMessage sourceId targetId message ns nw os).registry.lookup
        i).map PeerState.lastActive) = ((r.lookup i).map PeerState.lastActive) := by
  have key : r.relayMessage sourceId targetId message ns nw os = ⟨false, r, none⟩ := by
    rcases h with h | h
    · cases ht : r.lookup targetId <;> simp [Registry.relayMessage, h, ht]
    · cases hs : r.lookup sourceId <;> simp [Registry.relayMessage, h, hs]
  rw [key]
  exact ⟨rfl, rfl, fun i => rfl⟩

/-- Witness for C1 at a concrete registry missing the target id. -/
theorem relayMessage_absent_false_no_change_witness :
    (rW1.relayMessage "a" "zz" "hi" 3 9 (some 4)).ok = false ∧
    (rW1.relayMessage "a" "zz" "hi" 3 9 (some 4)).registry = rW1 :=
  ⟨(relayMessage_absent_false_no_change rW1 "a" "zz" "hi" 3 9 (some 4)
      (Or.inr (by decide))).1,
   (relayMessage_absent_false_no_change rW1 "a" "zz" "hi" 3 9 (some 4)
      (Or.inr (by decide))).2.1⟩

/-- Claim C2 counterexample: in a registry that already stores a peer
under id "a", two further `addPeer` calls with peers of id "a" leave the
pre-existing entry in place, so the surviving entry is not "the peer from
the first call" — the claim fails for such a starting state. -/
theorem addPeer_duplicate_cex :
    peerA.id = "a" ∧ peerA2.id = "a" ∧
    Registry.entriesFor
        (Registry.addPeer (Registry.addPeer [("a", peerPre)] peerA) peerA2) "a"
      = [("a", peerPre)] ∧
    peerPre ≠ peerA := by decide

/-- Claim C2 (amended): for every registry in which the shared id is not
yet present, after two `addPeer` calls with peers carrying that id the
registry holds exactly one entry for it, namely the peer from the first
call; the second insert is rejected and never overwrites the first. -/
theorem addPeer_duplicate_rejected (r : Registry) (p1 p2 : PeerState)
    (h : r.lookup p1.id = none) (hid : p2.id = p1.id) :
    Registry.entriesFor (Registry.addPeer (Registry.addPeer r p1) p2) p1.id
      = [(p1.id, p1)] := by
  have h1 : Registry.addPeer r p1 = r ++ [(p1.id, p1)] := by
    simp [Registry.addPeer, h]
  have h2 : (r ++ [(p1.id, p1)]).lookup p2.id = some p1 := by
    rw [hid, Registry.lookup_append_of_none h]
    simp [Registry.lookup]
  have h3 : Registry.addPeer (Registry.addPeer r p1) p2 = r ++ [(p1.id, p1)] := by
    rw [h1, Registry.addPeer, h2]
    simp
  rw [h3, Registry.entriesFor_append, Registry.entriesFor_nil_of_lookup_none h]
  simp [Registry.entriesFor]

/-- Witness for the amended C2 at the empty registry. -/
theorem addPeer_duplicate_rejected_witness :
    Registry.entriesFor (Registry.addPeer (Registry.addPeer [] peerA) peerA2) "a"
      = [("a", peerA)] :=
  addPeer_duplicate_rejected [] peerA peerA2 rfl rfl

/-- Claim C3: after `removeInactivePeers T` (at wall time `nw`), every
peer whose age `nw − lastActive` strictly exceeds `T` is absent from
`listPeers` (no snapshot entry carries its id), and every peer within `T`
is still present. -/
theorem removeInactivePeers_spec (r : Registry) (T nw : Nat) (i : String)
    (p : PeerState) (hk : r.keysNodup) (hc : r.idsConsistent)
    (h : r.lookup i = some p) :
    (nw - p.lastActive > T →
      ∀ q ∈ (r.removeInactivePeers T nw).listPeers, q.id ≠ i) ∧
    (nw - p.lastActive ≤ T →
      p ∈ (r.removeInactivePeers T nw).listPeers) := by
  constructor
  · intro hage q hq hqi
    rw [Registry.listPeers] at hq
    obtain ⟨e, he, hq2⟩ := List.mem_map.mp hq
    have heR : e ∈ r := List.mem_of_mem_filter he
    have hkey : e.1 = i := by rw [← hc e heR, hq2, hqi]
    have hcp : (i, e.2) ∈ r := by
      rw [← hkey]; exact heR
    have hlp : r.lookup i = some e.2 := Registry.mem_lookup_of_keysNodup hk hcp
    rw [h] at hlp
    have hpe : p = e.2 := Option.some.inj hlp
    have hkeep := List.of_mem_filter he
    rw [← hpe] at hkeep
    simp at hkeep
    omega
  · intro hage
    have hmem : (i, p) ∈ r := Registry.lookup_mem h
    rw [Registry.listPeers]
    refine List.mem_map.mpr ⟨(i, p), ?_, rfl⟩
    refine List.mem_filter.mpr ⟨hmem, ?_⟩
    simp
    omega

/-- Witness for C3: at `T = 10`, `nw = 100` the recently-active peer
remains in the snapshot and no snapshot entry carries the evicted
peer's id. -/
theorem removeInactivePeers_spec_witness :
    peerNew ∈ (rW3.removeInactivePeers 10 100).listPeers ∧
    peerNew.id ≠ "o" :=
  ⟨(removeInactivePeers_spec rW3 10 100 "n" peerNew
      (by show (rW3.map Prod.fst).Nodup; decide)
      (by show ∀ e ∈ rW3, (e : String × PeerState).2.id = e.1; decide)
      (by decide)).2 (by decide),
   (removeInactivePeers_spec rW3 10 100 "o" peerOld
      (by show (rW3.map Prod.fst).Nodup; decide)
      (by show ∀ e ∈ rW3, (e : String × PeerState).2.id = e.1; decide)
      (by decide)).1 (by decide) peerNew (by decide)⟩

/-- A peer whose socket exists but is closed. -/
def peerClosed : PeerState :=
  { peerA with socket := some ⟨false, SocketMode.TCP_CLIENT⟩ }

/-- A listening-mode peer with an open TCP server socket. -/
def peerServer : PeerState := { peerA with socket := some openServerSock }

/-- Claim C4 counterexample: a successful `sendMessage` on a connected
peer leaves the last-active timestamp exactly as it was — the source
never writes `lastActive_` (relaying updates it separately through
`updateLastActive`), so the claim's "updates the peer's last-active
timestamp" clause fails on this concrete successful send. -/
theorem sendMessage_lastActive_cex :
    (peerA.sendMessage "hi" 3 (some 5)).1 = true ∧
    (peerA.sendMessage "hi" 3 (some 5)).2.lastActive = peerA.lastActive := by
  decide

/-- Claim C4 (amended): `sendMessage` fails fast (false, connected flag
cleared, no send attempted) when the peer has no open connection; else it
forwards the text to `Connection.send` after recording the attempt time
in the last-sent field, and exactly when the send succeeds it increments
the messages-sent and bytes-sent counters; the last-active timestamp is
left unchanged in every case. -/
theorem sendMessage_spec (p : PeerState) (m : String) (ns : Nat)
    (os : Option Nat) :
    (p.hasOpenSocket = false →
      p.sendMessage m ns os = (false, { p with isConnectedFlag := false })) ∧
    (p.hasOpenSocket = true →
      ((p.sendMessage m ns os).1 = true ↔ 0 < p.socketSend m os) ∧
      (p.sendMessage m ns os).2.messagesSent
        = p.messagesSent + (if 0 < p.socketSend m os then 1 else 0) ∧
      (p.sendMessage m ns os).2.bytesSent
        = p.bytesSent + (if 0 < p.socketSend m os then p.socketSend m os else 0) ∧
      (p.sendMessage m ns os).2.lastSent = some ns) ∧
    (p.sendMessage m ns os).2.lastActive = p.lastActive := by
  refine ⟨?_, ?_, PeerState.sendMessage_lastActive p m ns os⟩
  · intro h
    rw [PeerState.sendMessage]
    simp [h]
  · intro h
    rw [PeerState.sendMessage]
    by_cases hs : 0 < p.socketSend m os <;> simp [h, hs]

/-- Witness for the amended C4: both the open-socket and the
closed-socket cases at concrete peers. -/
theorem sendMessage_spec_witness :
    ((peerA.sendMessage "hi" 3 (some 5)).1 = true ↔
      0 < peerA.socketSend "hi" (some 5)) ∧
    (peerA.sendMessage "hi" 3 (some 5)).2.lastActive = peerA.lastActive ∧
    peerClosed.sendMessage "hi" 3 (some 5)
      = (false, { peerClosed with isConnectedFlag := false }) :=
  ⟨((sendMessage_spec peerA "hi" 3 (some 5)).2.1 (by decide)).1,
   (sendMessage_spec peerA "hi" 3 (some 5)).2.2,
   (sendMessage_spec peerClosed "hi" 3 (some 5)).1 (by decide)⟩

/-- Claim C7: on an open socket, `send` returns the byte count the OS
send reported and 0 on its transient failure; on a datagram-mode socket
the same holds for `sendTo`.  Both embedded functions return a plain
`Nat` on every input: a steady-state I/O failure is absorbed into the 0
result, never raised to the caller. -/
theorem socket_send_transient_absorbed (s : SocketWrapper) (data : String)
    (addr : Addr) (n : Nat) (h : s.isSocketOpen = true) :
    s.send data (some n) = n ∧ s.send data none = 0 ∧
    (s.mode = SocketMode.UDP →
      s.sendTo data addr (some n) = n ∧ s.sendTo data addr none = 0) := by
  refine ⟨?_, ?_, fun hm => ⟨?_, ?_⟩⟩
  · simp [SocketWrapper.send, h]
  · simp [SocketWrapper.send, h]
  · simp [SocketWrapper.sendTo, h, hm]
  · simp [SocketWrapper.sendTo, h, hm]

/-- Witness for C7 on a concrete open UDP socket. -/
theorem socket_send_transient_absorbed_witness :
    SocketWrapper.send ⟨true, SocketMode.UDP⟩ "abc" (some 3) = 3 ∧
    SocketWrapper.sendTo ⟨true, SocketMode.UDP⟩ "abc" ⟨"224.0.0.1", 5000⟩ none = 0 :=
  ⟨(socket_send_transient_absorbed ⟨true, SocketMode.UDP⟩ "abc"
      ⟨"224.0.0.1", 5000⟩ 3 rfl).1,
   ((socket_send_transient_absorbed ⟨true, SocketMode.UDP⟩ "abc"
      ⟨"224.0.0.1", 5000⟩ 3 rfl).2.2 rfl).2⟩

/-- Claim C10 evidence: with an open connection, on the control paths
where every receive yields an empty payload (point-to-point blocking
receive empty; listening mode with an accepted child whose receive is
empty), the embedded `receiveMessage` yields no return value (`none`):
the source body reaches the end of the non-void function without
executing a return statement, which is undefined behaviour in C++, so
the function is not total as the claim states. -/
theorem receiveMessage_missing_return :
    peerA.hasOpenSocket = true ∧
    (peerA.receiveMessage [] "" 4).1 = none ∧
    peerServer.hasOpenSocket = true ∧
    (peerServer.receiveMessage [""] "" 4).1 = none := by
  decide

theorem discoveryListenerStep_nodup (ps : List String) (d : Datagram)
    (h : ps.Nodup) : ((discoveryListenerStep ps d).1).Nodup := by
  rw [discoveryListenerStep]
  by_cases h0 : d.payload = ""
  · rw [if_pos h0]; exact h
  rw [if_neg h0]
  by_cases h1 : d.payload = DiscoveryMessageType.DISCOVERY_REQUEST.text
  · rw [if_pos h1]; exact h
  rw [if_neg h1]
  by_cases h2 : d.payload = DiscoveryMessageType.DISCOVERY_RESPONSE.text
  · rw [if_pos h2, handleDiscoveryResponse]
    by_cases hm : d.sender.toKey ∈ ps
    · rw [if_pos hm]; exact h
    · rw [if_neg hm]
      refine List.Nodup.append h (List.nodup_singleton _) ?_
      intro x hx hy
      rw [List.mem_singleton] at hy
      subst hy
      exact hm hx
  · rw [if_neg h2]; exact h

/-- Claim C5: after the discovery listener processes any sequence of
datagrams — arbitrarily many duplicate Response datagrams from one
sender included — the discovered list holds no duplicate address
strings, and insertion of an address already present is always
skipped. -/
theorem discovered_peers_nodup (ds : List Datagram) :
    (discoveredAfter ds).Nodup ∧
    ∀ (ps : List String) (a : Addr),
      a.toKey ∈ ps → handleDiscoveryResponse ps a = ps := by
  constructor
  · rw [discoveredAfter]
    have gen : ∀ (l : List Datagram) (ps : List String), ps.Nodup →
        (l.foldl (fun ps d => (discoveryListenerStep ps d).1) ps).Nodup := by
      intro l
      induction l with
      | nil => intro ps hp; exact hp
      | cons d l ih =>
        intro ps hp
        exact ih _ (discoveryListenerStep_nodup ps d hp)
    exact gen ds [] List.nodup_nil
  · intro ps a hm
    simp [handleDiscoveryResponse, hm]

/-- Witness for C5: a repeated Response from one sender is skipped. -/
theorem discovered_peers_nodup_witness :
    handleDiscoveryResponse ["192.168.0.7:5000"] ⟨"192.168.0.7", 5000⟩
      = ["192.168.0.7:5000"] :=
  (discovered_peers_nodup []).2 _ _ (by decide)

/-- Claim C6: dispatch of one received datagram by the discovery
listener: an exact Request payload is answered with a Response datagram
sent directly to the sender's address (not to the multicast group); an
exact Response payload inserts the sender's address into the discovered
set exactly when not already present; any other payload leaves the set
unchanged and sends nothing. -/
theorem discovery_listener_dispatch (peers : List String) (d : Datagram) :
    (d.payload = DiscoveryMessageType.DISCOVERY_REQUEST.text →
      discoveryListenerStep peers d
        = (peers, some (DiscoveryMessageType.DISCOVERY_RESPONSE.text, d.sender))) ∧
    (d.payload = DiscoveryMessageType.DISCOVERY_RESPONSE.text →
      discoveryListenerStep peers d
        = (handleDiscoveryResponse peers d.sender, none) ∧
      (d.sender.toKey ∈ peers → handleDiscoveryResponse peers d.sender = peers) ∧
      (d.sender.toKey ∉ peers →
        handleDiscoveryResponse peers d.sender = peers ++ [d.sender.toKey])) ∧
    (d.payload ≠ DiscoveryMessageType.DISCOVERY_REQUEST.text →
      d.payload ≠ DiscoveryMessageType.DISCOVERY_RESPONSE.text →
      discoveryListenerStep peers d = (peers, none)) := by
  refine ⟨?_, ?_, ?_⟩
  · intro h
    rw [discoveryListenerStep, h]
    rw [if_neg (by decide), if_pos rfl]
  · intro h
    refine ⟨?_, ?_, ?_⟩
    · rw [discoveryListenerStep, h]
      rw [if_neg (by decide), if_neg (by decide), if_pos rfl]
    · intro hm
      simp [handleDiscoveryResponse, hm]
    · intro hm
      simp [handleDiscoveryResponse, hm]
  · intro h1 h2
    rw [discoveryListenerStep]
    by_cases he : d.payload = ""
    · rw [if_pos he]
    · rw [if_neg he, if_neg h1, if_neg h2]

/-- Witness for C6: a concrete Request datagram is answered toward its
sender. -/
theorem discovery_listener_dispatch_witness :
    discoveryListenerStep [] ⟨"DISCOVERY_REQUEST", ⟨"192.168.0.7", 5000⟩⟩
      = ([], some ("DISCOVERY_RESPONSE", ⟨"192.168.0.7", 5000⟩)) :=
  (discovery_listener_dispatch [] ⟨"DISCOVERY_REQUEST", ⟨"192.168.0.7", 5000⟩⟩).1 rfl

theorem broadcast_foldl_fst (m : String) (ns : Nat)
    (osFor : String → Option Nat) :
    ∀ (l : List (String × PeerState)) (acc : Registry × List (String × Bool)),
      ((l.foldl (fun acc e =>
          let res := e.2.sendMessage m ns (osFor e.1)
          (acc.1.setPeer e.1 res.2, acc.2 ++ [(e.1, res.1)])) acc).2).map Prod.fst
        = acc.2.map Prod.fst ++ l.map Prod.fst := by
  intro l
  induction l with
  | nil => intro acc; simp
  | cons e l ih =>
    intro acc
    rw [List.foldl_cons, ih]
    simp

/-- Claim C9 (broadcast modelled from the spec): `broadcast` attempts
`sendMessage` on every peer registered at the time of the call, in
snapshot order, and the list of attempted ids equals the registry's ids
for every per-peer outcome oracle — an earlier peer's failed send never
truncates the attempts. -/
theorem broadcast_attempts_all (r : Registry) (m : String) (ns : Nat)
    (osFor : String → Option Nat) :
    ((r.broadcast m ns osFor).2).map Prod.fst = r.map Prod.fst := by
  rw [Registry.broadcast, broadcast_foldl_fst]
  simp

theorem relay_success_lastActive (r : Registry) (sId tId : String)
    (sp tp q : PeerState) (nw : Nat)
    (hs : r.lookup sId = some sp) (ht : r.lookup tId = some tp) :
    (((((r.setPeer tId q).updateLastActiveAt sId nw).updateLastActiveAt tId
        nw).lookup sId).map PeerState.lastActive) = some nw ∧
    (((((r.setPeer tId q).updateLastActiveAt sId nw).updateLastActiveAt tId
        nw).lookup tId).map PeerState.lastActive) = some nw := by
  by_cases hst : sId = tId
  · subst hst
    have f1 : (r.setPeer sId q).lookup sId = some q :=
      Registry.lookup_setPeer_self ht
    have f2 : ((r.setPeer sId q).updateLastActiveAt sId nw).lookup sId
        = some (q.updateLastActive nw) :=
      Registry.updateLastActiveAt_lookup_self f1
    have f3 : (((r.setPeer sId q).updateLastActiveAt sId nw).updateLastActiveAt
          sId nw).lookup sId
        = some ((q.updateLastActive nw).updateLastActive nw) :=
      Registry.updateLastActiveAt_lookup_self f2
    constructor <;> simp [f3, PeerState.updateLastActive]
  · have e1 : (r.setPeer tId q).lookup sId = some sp := by
      rw [Registry.lookup_setPeer_ne hst]; exact hs
    have e2 : ((r.setPeer tId q).updateLastActiveAt sId nw).lookup sId
        = some (sp.updateLastActive nw) :=
      Registry.updateLastActiveAt_lookup_self e1
    have e3 : (((r.setPeer tId q).updateLastActiveAt sId nw).updateLastActiveAt
          tId nw).lookup sId = some (sp.updateLastActive nw) := by
      rw [Registry.updateLastActiveAt_lookup_ne hst]; exact e2
    have f1 : (r.setPeer tId q).lookup tId = some q :=
      Registry.lookup_setPeer_self ht
    have f2 : ((r.setPeer tId q).updateLastActiveAt sId nw).lookup tId
        = some q := by
      rw [Registry.updateLastActiveAt_lookup_ne (fun hts => hst hts.symm)]
      exact f1
    have f3 : (((r.setPeer tId q).updateLastActiveAt sId nw).updateLastActiveAt
          tId nw).lookup tId = some (q.updateLastActive nw) :=
      Registry.updateLastActiveAt_lookup_self f2
    constructor
    · simp [e3, PeerState.updateLastActive]
    · simp [f3, PeerState.updateLastActive]

theorem relay_fail_lastActive (r : Registry) (sId tId : String)
    (sp tp q : PeerState)
    (hs : r.lookup sId = some sp) (ht : r.lookup tId = some tp)
    (hq : q.lastActive = tp.lastActive) :
    (((r.setPeer tId q).lookup sId).map PeerState.lastActive)
        = some sp.lastActive ∧
    (((r.setPeer tId q).lookup tId).map PeerState.lastActive)
        = some tp.lastActive := by
  have f1 : (r.setPeer tId q).lookup tId = some q :=
    Registry.lookup_setPeer_self ht
  by_cases hst : sId = tId
  · subst hst
    have hsp : sp = tp := by rw [hs] at ht; exact Option.some.inj ht
    constructor <;> simp [f1, hq, hsp]
  · have e1 : (r.setPeer tId q).lookup sId = some sp := by
      rw [Registry.lookup_setPeer_ne hst]; exact hs
    constructor
    · simp [e1]
    · simp [f1, hq]

/-- Claim C8: when the registry holds both ids, `relayMessage` hands the
target endpoint a payload equal to the visible relay marker
`"[Relayed] "` followed by the message, returns true exactly when the
target's `sendMessage` of that payload succeeds, and exactly on success
sets the last-active timestamp of both the source and the target to the
call's wall-clock time (on failure it returns false and both last-active
timestamps are unchanged). -/
theorem relayMessage_present_spec (r : Registry) (sId tId m : String)
    (ns nw : Nat) (os : Option Nat) (sp tp : PeerState)
    (hs : r.lookup sId = some sp) (ht : r.lookup tId = some tp) :
    (r.relayMessage sId tId m ns nw os).sentToTarget
        = some ("[Relayed] " ++ m) ∧
    (r.relayMessage sId tId m ns nw os).ok
        = (tp.sendMessage ("[Relayed] " ++ m) ns os).1 ∧
    ((tp.sendMessage ("[Relayed] " ++ m) ns os).1 = true →
      ((((r.relayMessage sId tId m ns nw os).registry.lookup sId).map
          PeerState.lastActive) = some nw ∧
       (((r.relayMessage sId tId m ns nw os).registry.lookup tId).map
          PeerState.lastActive) = some nw)) ∧
    ((tp.sendMessage ("[Relayed] " ++ m) ns os).1 = false →
      ((r.relayMessage sId tId m ns nw os).ok = false ∧
       (((r.relayMessage sId tId m ns nw os).registry.lookup sId).map
          PeerState.lastActive) = some sp.lastActive ∧
       (((r.relayMessage sId tId m ns nw os).registry.lookup tId).map
          PeerState.lastActive) = some tp.lastActive)) := by
  by_cases hok : (tp.sendMessage ("[Relayed] " ++ m) ns os).1 = true
  · have key : r.relayMessage sId tId m ns nw os =
        ⟨true,
         ((r.setPeer tId
             (tp.sendMessage ("[Relayed] " ++ m) ns os).2).updateLastActiveAt
             sId nw).updateLastActiveAt tId nw,
         some ("[Relayed] " ++ m)⟩ := by
      simp only [Registry.relayMessage, hs, ht]
      rw [if_pos hok]
    refine ⟨by rw [key], by rw [key, hok], ?_, ?_⟩
    · intro _
      rw [key]
      exact relay_success_lastActive r sId tId sp tp
        (tp.sendMessage ("[Relayed] " ++ m) ns os).2 nw hs ht
    · intro hfalse
      rw [hok] at hfalse
      exact absurd hfalse (by simp)
  · have hok2 : (tp.sendMessage ("[Relayed] " ++ m) ns os).1 = false :=
      Bool.eq_false_iff.mpr hok
    have key : r.relayMessage sId tId m ns nw os =
        ⟨false,
         r.setPeer tId (tp.sendMessage ("[Relayed] " ++ m) ns os).2,
         some ("[Relayed] " ++ m)⟩ := by
      simp only [Registry.relayMessage, hs, ht]
      rw [if_neg hok]
    refine ⟨by rw [key], by rw [key, hok2], ?_, ?_⟩
    · intro htrue
      rw [hok2] at htrue
      exact absurd htrue (by simp)
    · intro _
      refine ⟨by rw [key], ?_⟩
      rw [key]
      exact relay_fail_lastActive r sId tId sp tp
        (tp.sendMessage ("[Relayed] " ++ m) ns os).2 hs ht
        (PeerState.sendMessage_lastActive tp ("[Relayed] " ++ m) ns os)

/-- Witness for C8 at a concrete two-peer registry with a successful
send of 4 bytes. -/
theorem relayMessage_present_spec_witness :
    (rW8.relayMessage "a" "b" "hi" 3 9 (some 4)).sentToTarget
        = some "[Relayed] hi" ∧
    (((rW8.relayMessage "a" "b" "hi" 3 9 (some 4)).registry.lookup "a").map
        PeerState.lastActive) = some 9 ∧
    (((rW8.relayMessage "a" "b" "hi" 3 9 (some 4)).registry.lookup "b").map
        PeerState.lastActive) = some 9 :=
  ⟨(relayMessage_present_spec rW8 "a" "b" "hi" 3 9 (some 4) peerA peerB
      (by decide) (by decide)).1,
   ((relayMessage_present_spec rW8 "a" "b" "hi" 3 9 (some 4) peerA peerB
      (by decide) (by decide)).2.2.1 (by decide)).1,
   ((relayMessage_present_spec rW8 "a" "b" "hi" 3 9 (some 4) peerA peerB
      (by decide) (by decide)).2.2.1 (by decide)).2⟩

end Relay
